import Mathlib

/-!
Verification development for the MRS3 front end.

The repository is a browser front end: a canvas polygon-drawing widget
(src/components/polygon-drawer.tsx), a file-upload validator
(src/components/file-upload.tsx, with a legacy variant in src/unnamed/part_000),
and two page controllers (src/app/downscale — the full variant lives in
src/unnamed/part_000 — and src/app/restore/page.tsx) that POST multipart
forms to a backend.

JavaScript numbers are modelled as exact rationals (ℚ); file sizes as ℕ;
strings as Lean strings.  React `useState` state is modelled as explicit
state records, and the `onPolygonComplete` callback as an explicit
notification value emitted by each step.
-/

namespace MDS3

/-- A 2D point in image-pixel space (interface Point in polygon-drawer.tsx). -/
structure Point where
  x : ℚ
  y : ℚ
deriving DecidableEq, Repr

/-- The PolygonDrawer component state: `currentPoints` (the in-progress
polygon) and `completedPolygons` (the completed collection), the two
`useState` hooks of polygon-drawer.tsx. -/
structure DrawerState where
  currentPoints : List Point
  completedPolygons : List (List Point)
deriving DecidableEq, Repr

/-- The initial state of the PolygonDrawer: both hooks start empty. -/
def initialDrawerState : DrawerState := { currentPoints := [], completedPolygons := [] }

/-- The user-driven operations of the PolygonDrawer. -/
inductive DrawerEvent where
  | addPoint (p : Point)  -- handleCanvasClick appends the clicked point
  | complete              -- completeCurrentPolygon (Enter key or button)
  | undo                  -- undoLastPoint
  | reset                 -- resetAllPolygons
deriving DecidableEq, Repr

/-- One step of the PolygonDrawer.  Returns the new state together with the
argument passed to the `onPolygonComplete` callback, when the handler calls
it (`none` when the handler does not call the callback).

- addPoint: `setCurrentPoints(prev => [...prev, {x, y}])`
- complete: `if (currentPoints.length >= 3) { setCompletedPolygons(newPolygons);
  setCurrentPoints([]); onPolygonComplete(newPolygons) }` where
  `newPolygons = [...completedPolygons, currentPoints]`
- undo: `setCurrentPoints(prev => prev.slice(0, -1))`
- reset: `setCurrentPoints([]); setCompletedPolygons([]); onPolygonComplete([])` -/
def drawerStep (s : DrawerState) : DrawerEvent → DrawerState × Option (List (List Point))
  | .addPoint p => ({ s with currentPoints := s.currentPoints ++ [p] }, none)
  | .complete =>
      if 3 ≤ s.currentPoints.length then
        ({ currentPoints := [],
           completedPolygons := s.completedPolygons ++ [s.currentPoints] },
         some (s.completedPolygons ++ [s.currentPoints]))
      else
        (s, none)
  | .undo => ({ s with currentPoints := s.currentPoints.dropLast }, none)
  | .reset => ({ currentPoints := [], completedPolygons := [] }, some [])

/-- Run a sequence of drawer events, collecting every callback notification
in order. -/
def drawerRun : DrawerState → List DrawerEvent → DrawerState × List (List (List Point))
  | s, [] => (s, [])
  | s, e :: es =>
      let step := drawerStep s e
      let rest := drawerRun step.1 es
      (rest.1, step.2.toList ++ rest.2)

/-- The event script that draws one polygon: one click per point, then
a completion. -/
def polyScript (poly : List Point) : List DrawerEvent :=
  poly.map DrawerEvent.addPoint ++ [DrawerEvent.complete]

theorem drawerRun_append (l1 l2 : List DrawerEvent) (s : DrawerState) :
    drawerRun s (l1 ++ l2) =
      ((drawerRun (drawerRun s l1).1 l2).1,
       (drawerRun s l1).2 ++ (drawerRun (drawerRun s l1).1 l2).2) := by
  induction l1 generalizing s with
  | nil => simp [drawerRun]
  | cons e es ih => simp [drawerRun, ih]

theorem drawerRun_addPoints (poly : List Point) (s : DrawerState) :
    drawerRun s (poly.map DrawerEvent.addPoint) =
      ({ currentPoints := s.currentPoints ++ poly,
         completedPolygons := s.completedPolygons }, []) := by
  induction poly generalizing s with
  | nil => simp [drawerRun]
  | cons p ps ih => simp [drawerRun, drawerStep, ih]

theorem drawerRun_polyScript (poly : List Point) (c : List (List Point))
    (h : 3 ≤ poly.length) :
    drawerRun { currentPoints := [], completedPolygons := c } (polyScript poly) =
      ({ currentPoints := [], completedPolygons := c ++ [poly] }, [c ++ [poly]]) := by
  rw [polyScript, drawerRun_append, drawerRun_addPoints]
  simp [drawerRun, drawerStep, h]

theorem drawerRun_scripts (ps : List (List Point)) (c : List (List Point))
    (h : ∀ poly ∈ ps, 3 ≤ poly.length) :
    drawerRun { currentPoints := [], completedPolygons := c }
        ((ps.map polyScript).flatten) =
      ({ currentPoints := [], completedPolygons := c ++ ps },
       (List.range ps.length).map (fun k => c ++ ps.take (k + 1))) := by
  induction ps generalizing c with
  | nil => simp [drawerRun]
  | cons p rest ih =>
      have hp : 3 ≤ p.length := h p (by simp)
      have hrest : ∀ poly ∈ rest, 3 ≤ poly.length := fun poly hm => h poly (by simp [hm])
      rw [List.map_cons, List.flatten_cons, drawerRun_append, drawerRun_polyScript p c hp]
      rw [ih (c ++ [p]) hrest]
      refine Prod.ext (by simp) ?_
      simp only [List.length_cons, List.range_succ_eq_map, List.map_cons, List.map_map,
        List.cons_append, List.nil_append]
      refine List.cons_eq_cons.mpr ⟨by simp, ?_⟩
      apply List.map_congr_left
      intro k _
      simp [List.take_succ_cons, Function.comp]

/-- The bounding rectangle returned by `canvas.getBoundingClientRect()`:
viewport position of the top-left corner and displayed size in CSS pixels. -/
structure BoundingRect where
  left : ℚ
  top : ℚ
  width : ℚ
  height : ℚ
deriving DecidableEq, Repr

/-- The canvas's internal pixel resolution (`canvas.width`, `canvas.height`;
handleImageLoad sets these to the image's natural size). -/
structure CanvasRes where
  width : ℚ
  height : ℚ
deriving DecidableEq, Repr

/-- The component's cached `canvasScale` state (set once in handleImageLoad). -/
structure CanvasScale where
  x : ℚ
  y : ℚ
deriving DecidableEq, Repr

/-- handleCanvasClick from polygon-drawer.tsx: `rect` is the value of
`canvas.getBoundingClientRect()` obtained inside the handler at event time;
`scaleX`/`scaleY` are recomputed from it, and the click's client coordinates
are mapped to image-pixel coordinates.  The component's cached `canvasScale`
state is in scope in the source but never read by the handler; it is passed
here explicitly so that independence from the cache is provable. -/
def handleCanvasClick (canvas : CanvasRes) (rect : BoundingRect)
    (_canvasScale : CanvasScale) (clientX clientY : ℚ) : Point :=
  let scaleX := canvas.width / rect.width
  let scaleY := canvas.height / rect.height
  { x := (clientX - rect.left) * scaleX, y := (clientY - rect.top) * scaleY }

/-- C3: for every canvas with positive internal resolution (W,H) and displayed
bounding rectangle of positive size (w,h), a click at displayed offset (dx,dy)
from the rectangle's top-left is recorded as the image-pixel point
(dx*W/w, dy*H/h); and the recorded point is computed from the per-event
bounding rectangle alone — it does not depend on the cached canvasScale value. -/
theorem canvasClick_spec (W H w h left top dx dy : ℚ)
    (_hW : 0 < W) (_hH : 0 < H) (_hw : 0 < w) (_hh : 0 < h) :
    (∀ sc : CanvasScale,
      handleCanvasClick ⟨W, H⟩ ⟨left, top, w, h⟩ sc (left + dx) (top + dy) =
        ⟨dx * W / w, dy * H / h⟩) ∧
    (∀ (sc1 sc2 : CanvasScale) (cx cy : ℚ),
      handleCanvasClick ⟨W, H⟩ ⟨left, top, w, h⟩ sc1 cx cy =
        handleCanvasClick ⟨W, H⟩ ⟨left, top, w, h⟩ sc2 cx cy) := by
  refine ⟨fun sc => ?_, fun sc1 sc2 cx cy => rfl⟩
  simp only [handleCanvasClick]
  congr 1 <;> ring

/-- Witness for canvasClick_spec: an 800×600 canvas displayed at 400×300,
clicked 100 CSS pixels right and 50 down of the top-left corner. -/
theorem canvasClick_spec_witness :
    handleCanvasClick ⟨800, 600⟩ ⟨10, 20, 400, 300⟩ ⟨1, 1⟩ (10 + 100) (20 + 50) =
      ⟨100 * 800 / 400, 50 * 600 / 300⟩ :=
  (canvasClick_spec 800 600 400 300 10 20 100 50 (by norm_num) (by norm_num)
    (by norm_num) (by norm_num)).1 ⟨1, 1⟩

/-- JavaScript `Math.round`: round to nearest, ties toward positive infinity,
i.e. the floor of q + 1/2 (`Rat.floor` agrees with `⌊·⌋` by `Rat.floor_def`). -/
def jsRound (q : ℚ) : ℤ := (q + 1 / 2).floor

theorem ratFloor_eq_intFloor (q : ℚ) : q.floor = ⌊q⌋ :=
  (Rat.floor_def' q).trans Rat.floor_def.symm

theorem jsRound_eq_floor (q : ℚ) : jsRound q = ⌊q + 1 / 2⌋ :=
  ratFloor_eq_intFloor (q + 1 / 2)

/-- `JSON.stringify` of an array, given the already-serialized elements. -/
def jsonArray (elems : List String) : String :=
  "[" ++ String.intercalate "," elems ++ "]"

/-- The `polygons` form field built by handleDownscale (src/unnamed/part_000):
`JSON.stringify(polygons.map(poly => poly.map(pt => [Math.round(pt.x), Math.round(pt.y)])))`. -/
def encodePolygons (polys : List (List Point)) : String :=
  jsonArray (polys.map fun poly =>
    jsonArray (poly.map fun pt =>
      jsonArray [toString (jsRound pt.x), toString (jsRound pt.y)]))

/-- The non-binary multipart fields appended by handleDownscale before
POSTing to the /compress endpoint (the `image` field carries the file blob). -/
structure CompressForm where
  polygonsField : String
  scalerField : String
deriving DecidableEq, Repr

/-- handleDownscale (src/unnamed/part_000): appends `polygons` as the JSON
string of the integer-rounded coordinate pairs and `scaler` as
`scaler.toString()`. -/
def handleDownscaleForm (polys : List (List Point)) (scaler : ℤ) : CompressForm :=
  { polygonsField := encodePolygons polys, scalerField := toString scaler }

/-- C4: the compress submission serializes the polygon collection as a JSON
array of arrays of rounded [x,y] integer pairs and the scale factor as a
string: the spec's example polygon with scaler 2 yields exactly
polygons = "[[[10,10],[100,10],[100,100],[10,100]]]" and scaler = "2", and
fractional coordinates are rounded to the nearest integer (ties up). -/
theorem compressForm_spec :
    handleDownscaleForm [[⟨10, 10⟩, ⟨100, 10⟩, ⟨100, 100⟩, ⟨10, 100⟩]] 2 =
      { polygonsField := "[[[10,10],[100,10],[100,100],[10,100]]]",
        scalerField := "2" } ∧
    handleDownscaleForm [[⟨21 / 2, 93 / 10⟩, ⟨-3 / 2, 0⟩, ⟨7 / 3, 5 / 2⟩]] 4 =
      { polygonsField := "[[[11,9],[-1,0],[2,3]]]", scalerField := "4" } := by
  constructor <;>
    · simp only [handleDownscaleForm, encodePolygons, jsonArray, List.map, jsRound_eq_floor]
      norm_num
      exact ⟨rfl, rfl⟩

/-- A browser File object, as far as the upload components inspect it:
`mime` models the File's `type` property (declared MIME type), `size` its
byte size. -/
structure JsFile where
  name : String
  mime : String
  size : ℕ
deriving DecidableEq, Repr

/-- What an upload handler did with an incoming file. -/
inductive UploadOutcome where
  | selected (f : JsFile)   -- onFileSelect(file) was called
  | errored (msg : String)  -- setError(message); onFileSelect was not called
deriving DecidableEq, Repr

/-- Error message of the image-type check in validateFile. -/
def imageTypeMsg : String := "이미지 파일만 업로드할 수 있습니다."

/-- Error message of the .pkg-extension check in validateFile. -/
def pkgTypeMsg : String := ".pkg 파일만 업로드할 수 있습니다."

/-- Error message of the size check in validateFile: embeds
`Math.round(maxSize / (1024 * 1024))` as the MB bound. -/
def sizeMsg (maxSize : ℕ) : String :=
  "파일 크기가 너무 큽니다. " ++ toString (jsRound ((maxSize : ℚ) / (1024 * 1024))) ++
    "MB 이하의 파일을 선택해주세요."

/-- JavaScript `String.prototype.startsWith`, as a prefix test on the
character sequence. -/
def jsStartsWith (s pre : String) : Bool := pre.data.isPrefixOf s.data

/-- JavaScript `String.prototype.endsWith`, as a suffix test on the
character sequence. -/
def jsEndsWith (s post : String) : Bool := post.data.isSuffixOf s.data

/-- validateFile from src/components/file-upload.tsx: when accept is
"image/*" the declared MIME type must start with "image/"; when accept is
".pkg" the file NAME must end with ".pkg"; then `file.size > maxSize` fails.
Returns the first failing check's message, or none. -/
def validateFile (accept : String) (maxSize : ℕ) (file : JsFile) : Option String :=
  if accept = "image/*" ∧ ¬ jsStartsWith file.mime "image/" then some imageTypeMsg
  else if accept = ".pkg" ∧ ¬ jsEndsWith file.name ".pkg" then some pkgTypeMsg
  else if maxSize < file.size then some (sizeMsg maxSize)
  else none

/-- handleFileInput from src/components/file-upload.tsx: takes
`e.target.files?.[0]`, returns early when absent, validates, and either sets
the error or passes the file to onFileSelect. -/
def fileUpload_handleFileInput (accept : String) (maxSize : ℕ)
    (file : Option JsFile) : Option UploadOutcome :=
  match file with
  | none => none
  | some f =>
      match validateFile accept maxSize f with
      | some e => some (.errored e)
      | none => some (.selected f)

/-- handleDrop from src/components/file-upload.tsx: takes the first dropped
file, returns early when absent, validates, and either sets the error or
passes the file to onFileSelect. -/
def fileUpload_handleDrop (accept : String) (maxSize : ℕ)
    (files : List JsFile) : Option UploadOutcome :=
  match files.head? with
  | none => none
  | some f =>
      match validateFile accept maxSize f with
      | some e => some (.errored e)
      | none => some (.selected f)

/-- handleFileInput from the legacy FileUpload variant
(src/unnamed/part_000, lines 62-71): when a file is present it clears the
error state and calls onFileSelect(file) directly — no type/extension check
and no size check. -/
def part000_handleFileInput (file : Option JsFile) : Option UploadOutcome :=
  match file with
  | none => none
  | some f => some (.selected f)

/-- C5 counterexample: a file one byte over the 10MB default limit entering
the legacy upload variant (src/unnamed/part_000) through the click-to-browse
file input reaches onFileSelect unvalidated, although the validator policy
rejects that very file for being oversized. -/
theorem uploadValidation_counterexample :
    part000_handleFileInput
        (some { name := "huge.png", mime := "image/png", size := 10 * 1024 * 1024 + 1 }) =
      some (.selected { name := "huge.png", mime := "image/png", size := 10 * 1024 * 1024 + 1 }) ∧
    validateFile "image/*" (10 * 1024 * 1024)
        { name := "huge.png", mime := "image/png", size := 10 * 1024 * 1024 + 1 } =
      some (sizeMsg (10 * 1024 * 1024)) := by
  constructor
  · rfl
  · simp [validateFile, (by decide : jsStartsWith "image/png" "image/" = true)]

/-- C5 amended: in the primary upload component
(src/components/file-upload.tsx), a file reaches onFileSelect — via the
click-to-browse file input or via drag-and-drop — only when validateFile
accepts it, so a file failing the type/extension or size check never reaches
the consumer; the legacy variant's click-to-browse path
(src/unnamed/part_000) does not validate at all. -/
theorem uploadValidation_spec (accept : String) (maxSize : ℕ) :
    (∀ (file : Option JsFile) (f : JsFile),
      fileUpload_handleFileInput accept maxSize file = some (.selected f) →
      file = some f ∧ validateFile accept maxSize f = none) ∧
    (∀ (files : List JsFile) (f : JsFile),
      fileUpload_handleDrop accept maxSize files = some (.selected f) →
      files.head? = some f ∧ validateFile accept maxSize f = none) := by
  constructor
  · intro file f h
    match file with
    | none => simp [fileUpload_handleFileInput] at h
    | some g =>
        rcases hv : validateFile accept maxSize g with _ | e
        · simp [fileUpload_handleFileInput, hv] at h
          simp [h] at hv ⊢
          exact hv
        · simp [fileUpload_handleFileInput, hv] at h
  · intro files f h
    rcases hd : files.head? with _ | g
    · simp [fileUpload_handleDrop, hd] at h
    · rcases hv : validateFile accept maxSize g with _ | e
      · simp [fileUpload_handleDrop, hd, hv] at h
        simp [hd, h] at hv ⊢
        exact hv
      · simp [fileUpload_handleDrop, hd, hv] at h

/-- Witness for uploadValidation_spec: a small PNG passed through the file
input of the primary component. -/
theorem uploadValidation_spec_witness :
    (some { name := "a.png", mime := "image/png", size := 50 } : Option JsFile) =
        some { name := "a.png", mime := "image/png", size := 50 } ∧
    validateFile "image/*" 100 { name := "a.png", mime := "image/png", size := 50 } =
      none :=
  (uploadValidation_spec "image/*" 100).1
    (some { name := "a.png", mime := "image/png", size := 50 })
    { name := "a.png", mime := "image/png", size := 50 }
    (by simp [fileUpload_handleFileInput, validateFile,
          (by decide : jsStartsWith "image/png" "image/" = true)])

/-- C6: validateFile applies its checks in order and returns the first
failing check's message, or none when all pass: "foo.pkg" under accept
".pkg" passes the extension check whatever its MIME type (with the size
boundary at exactly maxSize passing and maxSize + 1 failing); an accept
"image/*" file with a non-image MIME type gets the type message even when
also oversized; and a file passing all applicable checks gets no error. -/
theorem validateFile_spec :
    (∀ (m : ℕ) (mime : String),
      validateFile ".pkg" m { name := "foo.pkg", mime := mime, size := m } = none) ∧
    (∀ (m : ℕ) (mime : String),
      validateFile ".pkg" m { name := "foo.pkg", mime := mime, size := m + 1 } =
        some (sizeMsg m)) ∧
    (∀ (m : ℕ) (f : JsFile), ¬ jsStartsWith f.mime "image/" = true →
      validateFile "image/*" m f = some imageTypeMsg) ∧
    (∀ (m : ℕ) (f : JsFile), ¬ jsEndsWith f.name ".pkg" = true →
      validateFile ".pkg" m f = some pkgTypeMsg) ∧
    (∀ (accept : String) (m : ℕ) (f : JsFile),
      (accept = "image/*" → jsStartsWith f.mime "image/" = true) →
      (accept = ".pkg" → jsEndsWith f.name ".pkg" = true) →
      f.size ≤ m → validateFile accept m f = none) := by
  refine ⟨?_, ?_, ?_, ?_, ?_⟩
  · intro m mime
    simp only [validateFile]
    rw [if_neg fun hc => absurd hc.1 (by decide),
        if_neg fun hc => hc.2 (by decide), if_neg (Nat.lt_irrefl m)]
  · intro m mime
    simp only [validateFile]
    rw [if_neg fun hc => absurd hc.1 (by decide),
        if_neg fun hc => hc.2 (by decide), if_pos (Nat.lt_succ_self m)]
  · intro m f h
    simp [validateFile, h]
  · intro m f h
    simp [validateFile, h]
  · intro accept m f h1 h2 hs
    simp only [validateFile]
    rw [if_neg, if_neg, if_neg]
    · exact Nat.not_lt.mpr hs
    · rintro ⟨ha, hb⟩
      exact hb (h2 ha)
    · rintro ⟨ha, hb⟩
      exact hb (h1 ha)

/-- Witness for validateFile_spec at concrete files: a foo.pkg file of
exactly the maximum size with a non-pkg MIME type passes; a text file under
"image/*" gets the image-type message; a small image passes all checks. -/
theorem validateFile_spec_witness :
    validateFile ".pkg" 7 { name := "foo.pkg", mime := "application/zip", size := 7 } =
        none ∧
    validateFile "image/*" 100 { name := "x.txt", mime := "text/plain", size := 5 } =
        some imageTypeMsg ∧
    validateFile "image/*" 100 { name := "a.png", mime := "image/png", size := 5 } =
        none := by
  refine ⟨validateFile_spec.1 7 "application/zip", ?_, ?_⟩
  · exact validateFile_spec.2.2.1 100 { name := "x.txt", mime := "text/plain", size := 5 }
      (by decide)
  · exact validateFile_spec.2.2.2.2 "image/*" 100
      { name := "a.png", mime := "image/png", size := 5 }
      (fun _ => by decide) (fun hx => absurd hx (by decide)) (by decide)

/-- What an awaited submission request cycle produced, as observed by the
try/catch in the page controllers: an ok response with a result blob URL, a
non-ok response carrying the optional `detail` field of its JSON body, or any
other thrown value (`isError` records `instanceof Error`). -/
inductive RequestOutcome where
  | success (url : String)
  | httpError (detail : Option String)
  | thrown (isError : Bool) (msg : String)
deriving DecidableEq, Repr

/-- The generic message for a caught value that is not an Error instance. -/
def unknownErrorMsg : String := "알 수 없는 오류가 발생했습니다."

/-- The fallback message thrown for a non-ok /restore response. -/
def restoreFallbackMsg : String := "복원 처리 중 오류가 발생했습니다."

/-- The fallback message thrown for a non-ok /compress response. -/
def compressFallbackMsg : String := "압축 처리 중 오류가 발생했습니다."

/-- The message stored by the catch block for each failing outcome: a non-ok
response throws `new Error(errorData.detail || fallback)` — JS `||` takes the
fallback when detail is absent OR the empty string — and the catch displays
`error.message` for Error instances and the generic unknown-error message for
any other thrown value. -/
def failureMsg (fallback : String) : RequestOutcome → Option String
  | .success _ => none
  | .httpError (some d) => some (if d = "" then fallback else d)
  | .httpError none => some fallback
  | .thrown true msg => some msg
  | .thrown false _ => some unknownErrorMsg

/-- The restore page controller state (src/app/restore/page.tsx useState
hooks), plus `inFlight`, a ghost counter of outstanding fetches used to state
the at-most-one-in-flight property. -/
structure RestoreState where
  uploadedFile : Option JsFile
  mrs3Mode : ℤ
  isProcessing : Bool
  resultUrl : Option String
  error : Option String
  inFlight : ℕ
deriving DecidableEq, Repr

/-- Initial restore page state: no file, EDSR mode (-1), idle. -/
def initialRestoreState : RestoreState :=
  { uploadedFile := none, mrs3Mode := -1, isProcessing := false,
    resultUrl := none, error := none, inFlight := 0 }

/-- canRestore (restore/page.tsx): the submit button is enabled iff a file is
selected and no request is processing (`uploadedFile && !isProcessing`). -/
def canRestore (s : RestoreState) : Bool :=
  s.uploadedFile.isSome && !s.isProcessing

/-- Events driving the restore page controller. -/
inductive RestoreEvent where
  | clickRestore
  | settle (o : RequestOutcome)
deriving DecidableEq, Repr

/-- One transition of the restore page controller.

- clickRestore: the submit button is rendered with `disabled={!canRestore}`,
  so a click reaches handleRestore only when canRestore holds (handleRestore
  additionally returns early without a file); it sets the processing flag,
  clears the error, and issues the fetch.
- settle: when a fetch is outstanding, the try/catch records the blob URL or
  the failure message, and the finally block clears the processing flag
  unconditionally. -/
def restoreStep (s : RestoreState) : RestoreEvent → RestoreState
  | .clickRestore =>
      if canRestore s then
        { s with isProcessing := true, error := none, inFlight := s.inFlight + 1 }
      else s
  | .settle o =>
      if s.inFlight = 0 then s
      else
        match o with
        | .success url =>
            { s with resultUrl := some url, isProcessing := false,
                     inFlight := s.inFlight - 1 }
        | o =>
            { s with error := failureMsg restoreFallbackMsg o, isProcessing := false,
                     inFlight := s.inFlight - 1 }

/-- Run the restore page controller over a sequence of events. -/
def runRestore (s : RestoreState) : List RestoreEvent → RestoreState
  | [] => s
  | e :: es => runRestore (restoreStep s e) es

/-- The downscale page controller state (src/unnamed/part_000 useState hooks),
plus the ghost `inFlight` counter. -/
structure DownscaleState where
  uploadedFile : Option JsFile
  polygons : List (List Point)
  scaler : ℤ
  isProcessing : Bool
  resultUrl : Option String
  error : Option String
  inFlight : ℕ
deriving DecidableEq, Repr

/-- Initial downscale page state: no file, no polygons, scaler 2, idle. -/
def initialDownscaleState : DownscaleState :=
  { uploadedFile := none, polygons := [], scaler := 2, isProcessing := false,
    resultUrl := none, error := none, inFlight := 0 }

/-- canCompress (src/unnamed/part_000): the submit button is enabled iff a
file is selected, at least one polygon exists, and no request is processing. -/
def canCompress (s : DownscaleState) : Bool :=
  s.uploadedFile.isSome && !s.polygons.isEmpty && !s.isProcessing

/-- Events driving the downscale page controller. -/
inductive DownscaleEvent where
  | clickCompress
  | settle (o : RequestOutcome)
deriving DecidableEq, Repr

/-- One transition of the downscale page controller; same shape as
restoreStep, with the /compress fallback message and the canCompress guard
(handleDownscale returns early when the file is missing or no polygon is
drawn). -/
def downscaleStep (s : DownscaleState) : DownscaleEvent → DownscaleState
  | .clickCompress =>
      if canCompress s then
        { s with isProcessing := true, error := none, inFlight := s.inFlight + 1 }
      else s
  | .settle o =>
      if s.inFlight = 0 then s
      else
        match o with
        | .success url =>
            { s with resultUrl := some url, isProcessing := false,
                     inFlight := s.inFlight - 1 }
        | o =>
            { s with error := failureMsg compressFallbackMsg o, isProcessing := false,
                     inFlight := s.inFlight - 1 }

/-- Run the downscale page controller over a sequence of events. -/
def runDownscale (s : DownscaleState) : List DownscaleEvent → DownscaleState
  | [] => s
  | e :: es => runDownscale (downscaleStep s e) es

theorem restoreStep_inv (s : RestoreState) (e : RestoreEvent)
    (h : s.inFlight = if s.isProcessing then 1 else 0) :
    (restoreStep s e).inFlight = if (restoreStep s e).isProcessing then 1 else 0 := by
  cases e with
  | clickRestore =>
      by_cases hc : canRestore s = true
      · have hp : s.isProcessing = false := by
          cases hb : s.isProcessing
          · rfl
          · rw [canRestore, hb] at hc
            simp at hc
        rw [hp, if_neg Bool.false_ne_true] at h
        simp [restoreStep, hc, h]
      · simp only [restoreStep, if_neg hc]
        exact h
  | settle o =>
      by_cases h0 : s.inFlight = 0
      · simpa [restoreStep, h0] using h
      · have h1 : s.inFlight = 1 := by
          cases hb : s.isProcessing <;> rw [hb] at h <;> simp at h <;> omega
        cases o <;> simp [restoreStep, h0, h1]

theorem runRestore_inv (evs : List RestoreEvent) (s : RestoreState)
    (h : s.inFlight = if s.isProcessing then 1 else 0) :
    (runRestore s evs).inFlight = if (runRestore s evs).isProcessing then 1 else 0 := by
  induction evs generalizing s with
  | nil => exact h
  | cons e es ih => exact ih (restoreStep s e) (restoreStep_inv s e h)

theorem downscaleStep_inv (s : DownscaleState) (e : DownscaleEvent)
    (h : s.inFlight = if s.isProcessing then 1 else 0) :
    (downscaleStep s e).inFlight = if (downscaleStep s e).isProcessing then 1 else 0 := by
  cases e with
  | clickCompress =>
      by_cases hc : canCompress s = true
      · have hp : s.isProcessing = false := by
          cases hb : s.isProcessing
          · rfl
          · rw [canCompress, hb] at hc
            simp at hc
        rw [hp, if_neg Bool.false_ne_true] at h
        simp [downscaleStep, hc, h]
      · simp only [downscaleStep, if_neg hc]
        exact h
  | settle o =>
      by_cases h0 : s.inFlight = 0
      · simpa [downscaleStep, h0] using h
      · have h1 : s.inFlight = 1 := by
          cases hb : s.isProcessing <;> rw [hb] at h <;> simp at h <;> omega
        cases o <;> simp [downscaleStep, h0, h1]

theorem runDownscale_inv (evs : List DownscaleEvent) (s : DownscaleState)
    (h : s.inFlight = if s.isProcessing then 1 else 0) :
    (runDownscale s evs).inFlight =
      if (runDownscale s evs).isProcessing then 1 else 0 := by
  induction evs generalizing s with
  | nil => exact h
  | cons e es ih => exact ih (downscaleStep s e) (downscaleStep_inv s e h)

/-- C7: on both page controllers, a submission trigger while a request is
processing is ignored, the processing flag is cleared whenever an outstanding
request settles — success or any failure — and along every event sequence
from the initial state at most one request is ever in flight. -/
theorem processingFlag_spec :
    (∀ s : RestoreState, s.isProcessing = true → restoreStep s .clickRestore = s) ∧
    (∀ (s : RestoreState) (o : RequestOutcome), s.inFlight ≠ 0 →
      (restoreStep s (.settle o)).isProcessing = false) ∧
    (∀ evs : List RestoreEvent, (runRestore initialRestoreState evs).inFlight ≤ 1) ∧
    (∀ s : DownscaleState, s.isProcessing = true → downscaleStep s .clickCompress = s) ∧
    (∀ (s : DownscaleState) (o : RequestOutcome), s.inFlight ≠ 0 →
      (downscaleStep s (.settle o)).isProcessing = false) ∧
    (∀ evs : List DownscaleEvent, (runDownscale initialDownscaleState evs).inFlight ≤ 1) := by
  refine ⟨?_, ?_, ?_, ?_, ?_, ?_⟩
  · intro s hp
    simp [restoreStep, canRestore, hp]
  · intro s o h0
    cases o <;> simp [restoreStep, h0]
  · intro evs
    have h := runRestore_inv evs initialRestoreState (by rfl)
    rw [h]
    split <;> omega
  · intro s hp
    simp [downscaleStep, canCompress, hp]
  · intro s o h0
    cases o <;> simp [downscaleStep, h0]
  · intro evs
    have h := runDownscale_inv evs initialDownscaleState (by rfl)
    rw [h]
    split <;> omega

/-- Witness for processingFlag_spec: a settling request on a processing
restore page clears the flag; a click on a processing downscale page is
ignored. -/
theorem processingFlag_spec_witness :
    (restoreStep
        { uploadedFile := some { name := "a.pkg", mime := "", size := 5 },
          mrs3Mode := -1, isProcessing := true, resultUrl := none, error := none,
          inFlight := 1 } (.settle (.success "blob:result"))).isProcessing = false ∧
    downscaleStep
        { uploadedFile := some { name := "a.png", mime := "image/png", size := 5 },
          polygons := [[⟨0, 0⟩, ⟨1, 0⟩, ⟨0, 1⟩]], scaler := 2, isProcessing := true,
          resultUrl := none, error := none, inFlight := 1 } .clickCompress =
      { uploadedFile := some { name := "a.png", mime := "image/png", size := 5 },
        polygons := [[⟨0, 0⟩, ⟨1, 0⟩, ⟨0, 1⟩]], scaler := 2, isProcessing := true,
        resultUrl := none, error := none, inFlight := 1 } := by
  constructor
  · exact processingFlag_spec.2.1 _ (.success "blob:result") (by decide)
  · exact processingFlag_spec.2.2.2.1 _ rfl

/-- C8 counterexample: with a request outstanding on the restore page, an
HTTP failure whose JSON body carries `detail` present but equal to the empty
string displays the generic fallback rather than the detail value, and a
thrown network Error (TypeError "Failed to fetch") displays its own message
rather than a generic one. -/
theorem restoreError_counterexample :
    (restoreStep
        { uploadedFile := some { name := "a.pkg", mime := "", size := 5 },
          mrs3Mode := -1, isProcessing := true, resultUrl := none, error := none,
          inFlight := 1 } (.settle (.httpError (some "")))).error =
        some restoreFallbackMsg ∧
    restoreFallbackMsg ≠ "" ∧
    (restoreStep
        { uploadedFile := some { name := "a.pkg", mime := "", size := 5 },
          mrs3Mode := -1, isProcessing := true, resultUrl := none, error := none,
          inFlight := 1 } (.settle (.thrown true "Failed to fetch"))).error =
        some "Failed to fetch" ∧
    "Failed to fetch" ≠ unknownErrorMsg ∧
    "Failed to fetch" ≠ restoreFallbackMsg := by
  refine ⟨rfl, by decide, rfl, by decide, by decide⟩

/-- C8 amended: when an outstanding /restore request settles in failure, the
displayed message is the JSON `detail` value when present and non-empty (so
HTTP 500 with detail "model unavailable" displays exactly that); the generic
fallback when detail is absent or empty; the thrown error's own message when
the exception is an Error instance; and the generic unknown-error message
otherwise.  In every case the settled step leaves the processing flag false,
and the transition is total: the failure is stored in page state. -/
theorem restoreError_spec (s : RestoreState) (hf : s.inFlight ≠ 0) :
    (∀ d : String, d ≠ "" →
      (restoreStep s (.settle (.httpError (some d)))).error = some d) ∧
    (restoreStep s (.settle (.httpError none))).error = some restoreFallbackMsg ∧
    (restoreStep s (.settle (.httpError (some "")))).error = some restoreFallbackMsg ∧
    (∀ msg : String, (restoreStep s (.settle (.thrown true msg))).error = some msg) ∧
    (∀ msg : String,
      (restoreStep s (.settle (.thrown false msg))).error = some unknownErrorMsg) ∧
    (∀ o : RequestOutcome, (restoreStep s (.settle o)).isProcessing = false) := by
  refine ⟨?_, ?_, ?_, ?_, ?_, ?_⟩
  · intro d hd
    simp [restoreStep, failureMsg, hf, hd]
  · simp [restoreStep, failureMsg, hf]
  · simp [restoreStep, failureMsg, hf]
  · intro msg
    simp [restoreStep, failureMsg, hf]
  · intro msg
    simp [restoreStep, failureMsg, hf]
  · intro o
    cases o <;> simp [restoreStep, hf]

/-- Witness for restoreError_spec at the spec's end-to-end scenario: HTTP 500
with detail "model unavailable" on a processing restore page displays exactly
"model unavailable" and clears the processing flag. -/
theorem restoreError_spec_witness :
    (restoreStep
        { uploadedFile := some { name := "a.pkg", mime := "", size := 5 },
          mrs3Mode := -1, isProcessing := true, resultUrl := none, error := none,
          inFlight := 1 } (.settle (.httpError (some "model unavailable")))).error =
        some "model unavailable" ∧
    (restoreStep
        { uploadedFile := some { name := "a.pkg", mime := "", size := 5 },
          mrs3Mode := -1, isProcessing := true, resultUrl := none, error := none,
          inFlight := 1 } (.settle (.httpError (some "model unavailable")))).isProcessing =
        false := by
  constructor
  · exact (restoreError_spec _ (by decide)).1 "model unavailable" (by decide)
  · exact (restoreError_spec _ (by decide)).2.2.2.2.2 (.httpError (some "model unavailable"))

/-- C1: For every drawer state (hence after every sequence of addPoint calls),
completeCurrentPolygon succeeds exactly when the current polygon has at least 3
points: with ≥3 points it appends the current polygon to the completed
collection, clears the current polygon to empty, and notifies with the new
collection; with fewer than 3 points it leaves the entire state unchanged and
emits no notification. -/
theorem completePolygon_spec (s : DrawerState) :
    (3 ≤ s.currentPoints.length →
      drawerStep s .complete =
        ({ currentPoints := [],
           completedPolygons := s.completedPolygons ++ [s.currentPoints] },
         some (s.completedPolygons ++ [s.currentPoints]))) ∧
    (s.currentPoints.length < 3 →
      drawerStep s .complete = (s, none)) := by
  constructor
  · intro h
    simp [drawerStep, h]
  · intro h
    simp [drawerStep, Nat.not_le.mpr h]

/-- Witness for completePolygon_spec: a 3-point polygon completes, a 2-point
polygon leaves the state untouched. -/
theorem completePolygon_spec_witness :
    drawerStep { currentPoints := [⟨0, 0⟩, ⟨1, 0⟩, ⟨0, 1⟩], completedPolygons := [] }
        .complete =
      ({ currentPoints := [], completedPolygons := [[⟨0, 0⟩, ⟨1, 0⟩, ⟨0, 1⟩]] },
       some [[⟨0, 0⟩, ⟨1, 0⟩, ⟨0, 1⟩]]) ∧
    drawerStep { currentPoints := [⟨0, 0⟩, ⟨1, 0⟩], completedPolygons := [] } .complete =
      ({ currentPoints := [⟨0, 0⟩, ⟨1, 0⟩], completedPolygons := [] }, none) := by
  constructor
  · have h := (completePolygon_spec
      { currentPoints := [⟨0, 0⟩, ⟨1, 0⟩, ⟨0, 1⟩], completedPolygons := [] }).1 (by decide)
    simpa using h
  · have h := (completePolygon_spec
      { currentPoints := [⟨0, 0⟩, ⟨1, 0⟩], completedPolygons := [] }).2 (by decide)
    simpa using h

/-- C2: from the initial state, drawing and completing k polygons in sequence
(each with ≥3 clicks) yields exactly those k polygons as the completed
collection in completion order, and the i-th onPolygonComplete notification is
the full collection of the first i completed polygons; moreover, for every
single step that changes the completed collection, the notification is exactly
the new full collection, never a delta. -/
theorem multiPolygon_collection_spec (ps : List (List Point))
    (h : ∀ poly ∈ ps, 3 ≤ poly.length) :
    drawerRun initialDrawerState ((ps.map polyScript).flatten) =
      ({ currentPoints := [], completedPolygons := ps },
       (List.range ps.length).map (fun k => ps.take (k + 1))) ∧
    (∀ (s : DrawerState) (e : DrawerEvent),
      (drawerStep s e).1.completedPolygons ≠ s.completedPolygons →
      (drawerStep s e).2 = some (drawerStep s e).1.completedPolygons) := by
  constructor
  · have hrun := drawerRun_scripts ps [] h
    simpa [initialDrawerState] using hrun
  · intro s e hne
    cases e with
    | addPoint p => simp [drawerStep] at hne
    | complete =>
        by_cases h3 : 3 ≤ s.currentPoints.length
        · simp [drawerStep, h3]
        · simp [drawerStep, h3] at hne
    | undo => simp [drawerStep] at hne
    | reset => simp [drawerStep]

/-- Witness for multiPolygon_collection_spec: two triangles drawn in sequence
give a two-element completed collection, notified cumulatively. -/
theorem multiPolygon_collection_spec_witness :
    drawerRun initialDrawerState
        (([[⟨0, 0⟩, ⟨1, 0⟩, ⟨0, 1⟩], [⟨2, 2⟩, ⟨3, 2⟩, ⟨2, 3⟩]].map polyScript).flatten) =
      ({ currentPoints := [],
         completedPolygons := [[⟨0, 0⟩, ⟨1, 0⟩, ⟨0, 1⟩], [⟨2, 2⟩, ⟨3, 2⟩, ⟨2, 3⟩]] },
       [[[⟨0, 0⟩, ⟨1, 0⟩, ⟨0, 1⟩]],
        [[⟨0, 0⟩, ⟨1, 0⟩, ⟨0, 1⟩], [⟨2, 2⟩, ⟨3, 2⟩, ⟨2, 3⟩]]]) := by
  have h := (multiPolygon_collection_spec
    [[⟨0, 0⟩, ⟨1, 0⟩, ⟨0, 1⟩], [⟨2, 2⟩, ⟨3, 2⟩, ⟨2, 3⟩]] (by decide)).1
  simpa using h

/-- C9: resetAllPolygons, from every prior state, yields the initial state
(no completed polygons, empty current polygon) and notifies the consumer with
the empty completed collection. -/
theorem reset_spec (s : DrawerState) :
    drawerStep s .reset = (initialDrawerState, some []) := rfl

/-- C10: addPoint (canvas click) and undoLastPoint leave the completed
collection unchanged and never invoke the onPolygonComplete callback; a
callback invocation can only come from complete or reset. -/
theorem frame_spec (s : DrawerState) (p : Point) :
    ((drawerStep s (.addPoint p)).1.completedPolygons = s.completedPolygons ∧
      (drawerStep s (.addPoint p)).2 = none) ∧
    ((drawerStep s .undo).1.completedPolygons = s.completedPolygons ∧
      (drawerStep s .undo).2 = none) ∧
    (∀ e : DrawerEvent, (drawerStep s e).2 ≠ none →
      e = DrawerEvent.complete ∨ e = DrawerEvent.reset) := by
  refine ⟨⟨rfl, rfl⟩, ⟨rfl, rfl⟩, ?_⟩
  intro e he
  cases e with
  | addPoint q => simp [drawerStep] at he
  | complete => exact Or.inl rfl
  | undo => simp [drawerStep] at he
  | reset => exact Or.inr rfl

/-- Witness for frame_spec: a concrete click preserves the completed
collection, and the notifying event reset is one of complete/reset. -/
theorem frame_spec_witness :
    (drawerStep initialDrawerState (.addPoint ⟨1, 2⟩)).1.completedPolygons =
        initialDrawerState.completedPolygons ∧
    (DrawerEvent.reset = DrawerEvent.complete ∨ DrawerEvent.reset = DrawerEvent.reset) := by
  have h := frame_spec initialDrawerState ⟨1, 2⟩
  exact ⟨h.1.1, h.2.2 DrawerEvent.reset (by decide)⟩

end MDS3
